import Mathlib

/-!
Verification development for the mfa-auth-app repository.

The embedding covers:
-- the TOTP engine of src/utils/totp.ts (primary HMAC-SHA1 path and the
   degraded polynomial-hash fallback path), together with an executable
   SHA-1/HMAC-SHA1 model of the WebCrypto primitive it invokes;
-- the key validation schema, the key-input sanitizing handler, the
   localStorage load effect, the reset handler, and the OTP refresh effect
   of src/App.tsx, the latter as an explicit event-step state machine.

Machine integers are modelled as Nat with explicit reduction modulo 2^32
or 2^64 where the JavaScript source wraps; byte strings are lists of Nat
(each below 256); strings are Lean strings (sequences of scalar values;
the JavaScript corner cases that distinguish UTF-16 code units from code
points are noted where they arise and avoided by every theorem below).
-/

/-! ## String constants used by the development (kept as named definitions) -/

def emptyStr : String := ""

def colonStr : String := ":"

def dashesStr : String := "------"

def readableKeyField : String := "readableKey"

def lengthMsg : String := "Key must be exactly 16 characters."

def charsetMsg : String := "Key must contain only A-Z and 0-9."

def secretA : String := "AAAAAAAAAAAAAAAA"

def keyOkStr : String := "AB12CD34EF56GH78"

def len15Str : String := "AAAAAAAAAAAAAAA"

def len17LowerStr : String := "aaaaaaaaaaaaaaaaa"

def lower16Str : String := "ab12cd34ef56gh78"

def cfgAbcStr : String := "\x7b\"readableKey\":\"abc\"\x7d"

def abcStr : String := "abc"

def badJsonStr : String := "not json"

def oldKeyStr : String := "OLDKEY0000000000"

def newKeyStr : String := "NEWKEY0000000000"

def otpOneStr : String := "111111"

def otpTwoStr : String := "222222"

/-! ## SHA-1 and HMAC-SHA1 (executable model of the WebCrypto primitive
used by totp.ts via crypto.subtle.importKey / crypto.subtle.sign) -/

/-- Reduction modulo 2^32 (unsigned 32-bit wraparound). -/
def w32 (n : Nat) : Nat := n % 4294967296

/-- Left-rotation of a 32-bit word; the input is kept below 2^32 by
construction at every call site. -/
def rotl32 (b n : Nat) : Nat := w32 (n <<< b) ||| (n >>> (32 - b))

/-- SHA-1 round constants. -/
def sha1K (i : Nat) : Nat :=
  if i < 20 then 0x5A827999 else if i < 40 then 0x6ED9EBA1
  else if i < 60 then 0x8F1BBCDC else 0xCA62C1D6

/-- SHA-1 round functions; bitwise complement of a 32-bit word is xor
with 2^32 - 1. -/
def sha1F (i b c d : Nat) : Nat :=
  if i < 20 then (b &&& c) ||| ((b ^^^ 4294967295) &&& d)
  else if i < 40 then b ^^^ c ^^^ d
  else if i < 60 then (b &&& c) ||| (b &&& d) ||| (c &&& d)
  else b ^^^ c ^^^ d

/-- Big-endian 32-bit words from a byte list (groups of four). -/
def wordsOfBytesBE : List Nat → List Nat
  | b0 :: b1 :: b2 :: b3 :: rest =>
      (((b0 * 256 + b1) * 256 + b2) * 256 + b3) :: wordsOfBytesBE rest
  | _ => []

/-- Message-schedule extension: append the given number of extra words. -/
def sha1Extend : Nat → List Nat → List Nat
  | 0, ws => ws
  | k+1, ws =>
      let n := ws.length
      sha1Extend k (ws ++ [rotl32 1 ((ws.getD (n-3) 0) ^^^ (ws.getD (n-8) 0) ^^^
        (ws.getD (n-14) 0) ^^^ (ws.getD (n-16) 0))])

/-- One SHA-1 round applied to the working state (a, b, c, d, e). -/
def sha1Step (w : List Nat) (st : Nat × Nat × Nat × Nat × Nat) (i : Nat) :
    Nat × Nat × Nat × Nat × Nat :=
  let (a, b, c, d, e) := st
  let temp := w32 (rotl32 5 a + sha1F i b c d + e + sha1K i + w.getD i 0)
  (temp, a, rotl32 30 b, c, d)

/-- SHA-1 compression of one 64-byte block into the chaining state. -/
def sha1Compress (h : Nat × Nat × Nat × Nat × Nat) (block : List Nat) :
    Nat × Nat × Nat × Nat × Nat :=
  let w := sha1Extend 64 (wordsOfBytesBE block)
  let (a, b, c, d, e) := (List.range 80).foldl (sha1Step w) h
  let (h0, h1, h2, h3, h4) := h
  (w32 (h0 + a), w32 (h1 + b), w32 (h2 + c), w32 (h3 + d), w32 (h4 + e))

/-- Big-endian 8-byte encoding of n modulo 2^64.  This is also the
embedding of intToBuffer from totp.ts: DataView.setBigUint64 writes the
value reduced modulo 2^64 in big-endian order. -/
def be8 (n : Nat) : List Nat :=
  [n >>> 56 &&& 255, n >>> 48 &&& 255, n >>> 40 &&& 255, n >>> 32 &&& 255,
   n >>> 24 &&& 255, n >>> 16 &&& 255, n >>> 8 &&& 255, n &&& 255]

/-- SHA-1 padding: 0x80, zeros to 56 mod 64, then the bit length. -/
def sha1Pad (msg : List Nat) : List Nat :=
  msg ++ [128] ++ List.replicate ((119 - msg.length % 64) % 64) 0 ++ be8 (8 * msg.length)

/-- Fold the compression function over consecutive 64-byte blocks; the
fuel argument (instantiated with the padded length) keeps the recursion
structural. -/
def sha1Blocks : Nat → List Nat → (Nat × Nat × Nat × Nat × Nat) → Nat × Nat × Nat × Nat × Nat
  | 0, _, h => h
  | fuel+1, msg, h =>
      if msg.isEmpty then h
      else sha1Blocks fuel (msg.drop 64) (sha1Compress h (msg.take 64))

/-- Big-endian 4-byte encoding of one 32-bit word. -/
def wordBE4 (n : Nat) : List Nat :=
  [n >>> 24 &&& 255, n >>> 16 &&& 255, n >>> 8 &&& 255, n &&& 255]

/-- Serialize the final chaining state to the 20-byte digest. -/
def sha1Out (h : Nat × Nat × Nat × Nat × Nat) : List Nat :=
  wordBE4 h.1 ++ wordBE4 h.2.1 ++ wordBE4 h.2.2.1 ++ wordBE4 h.2.2.2.1 ++ wordBE4 h.2.2.2.2

/-- SHA-1 of a byte list. -/
def sha1 (msg : List Nat) : List Nat :=
  let padded := sha1Pad msg
  sha1Out (sha1Blocks padded.length padded
    (0x67452301, 0xEFCDAB89, 0x98BADCFE, 0x10325476, 0xC3D2E1F0))

/-- HMAC-SHA1 (block size 64): keys longer than the block are hashed
first, then zero-padded; inner pad 0x36, outer pad 0x5C. -/
def hmacSha1 (key msg : List Nat) : List Nat :=
  let k0 := if 64 < key.length then sha1 key else key
  let kPad := k0 ++ List.replicate (64 - k0.length) 0
  let ipad := kPad.map (fun b => b ^^^ 0x36)
  let opad := kPad.map (fun b => b ^^^ 0x5C)
  sha1 (opad ++ sha1 (ipad ++ msg))

/-- UTF-8 bytes of one scalar value (TextEncoder semantics). -/
def utf8Bytes (c : Char) : List Nat :=
  let n := c.toNat
  if n < 128 then [n]
  else if n < 2048 then [192 + n / 64, 128 + n % 64]
  else if n < 65536 then [224 + n / 4096, 128 + (n / 64) % 64, 128 + n % 64]
  else [240 + n / 262144, 128 + (n / 4096) % 64, 128 + (n / 64) % 64, 128 + n % 64]

/-- TextEncoder().encode: UTF-8 bytes of a string. -/
def utf8Encode (s : String) : List Nat :=
  s.data.foldr (fun c acc => utf8Bytes c ++ acc) []

/-! ## Decimal rendering and padding (Number.prototype.toString and
String.prototype.padStart as used by totp.ts) -/

/-- Decimal digits of n, most significant first; the fuel argument
(instantiated with n + 1, which always suffices since n / 10 decreases
strictly for n at least 10) keeps the recursion structural. -/
def toDecimalAux : Nat → Nat → List Char
  | 0, _ => []
  | fuel+1, n =>
      if n < 10 then [Nat.digitChar n]
      else toDecimalAux fuel (n / 10) ++ [Nat.digitChar (n % 10)]

/-- JavaScript Number.prototype.toString for a non-negative integer. -/
def natToString (n : Nat) : String := String.mk (toDecimalAux (n + 1) n)

/-- JavaScript String.prototype.padStart with a one-character pad: pad on
the left up to the target length, return the string unchanged when it is
already long enough (truncated subtraction gives an empty pad then). -/
def padStart (s : String) (len : Nat) (c : Char) : String :=
  String.mk (List.replicate (len - s.length) c ++ s.data)

/-! ## The TOTP engine (generateTotpForStep in src/utils/totp.ts) -/

/-- The fallback rolling hash loop of totp.ts:
hash = (hash * 31 + combined.charCodeAt(i)) >>> 0, starting from 0.
Characters are modelled as scalar values; every theorem below only
instantiates this on strings of ASCII characters, where scalar values and
UTF-16 code units coincide. -/
def fallbackHash (chars : List Char) : Nat :=
  chars.foldl (fun h c => w32 (h * 31 + c.toNat)) 0

/-- The HMAC digest of the primary path: key = UTF-8 bytes of the secret,
message = the 8-byte big-endian counter. -/
def totpDigest (secret : String) (timeStep : Nat) : List Nat :=
  hmacSha1 (utf8Encode secret) (be8 timeStep)

/-- offset = hmac[hmac.length - 1] & 0x0f. -/
def totpOffset (hmac : List Nat) : Nat :=
  (hmac.getD (hmac.length - 1) 0) &&& 15

/-- The dynamically truncated 31-bit value of totp.ts.  The JavaScript
source uses the signed 32-bit operators << and |; every operand stays
below 2^31 (the first byte is masked with 0x7f before the 24-bit shift),
so the Nat operations used here agree with them. -/
def totpBinary (hmac : List Nat) : Nat :=
  let offset := totpOffset hmac
  (((hmac.getD offset 0) &&& 127) <<< 24) |||
  (((hmac.getD (offset + 1) 0) &&& 255) <<< 16) |||
  (((hmac.getD (offset + 2) 0) &&& 255) <<< 8) |||
  ((hmac.getD (offset + 3) 0) &&& 255)

/-- generateTotpForStep from src/utils/totp.ts.  The branch on the
availability of crypto.subtle is modelled by the first argument: the code
takes the fallback branch exactly when the primitive is unavailable. -/
def generateTotpForStep (cryptoAvailable : Bool) (secret : String) (timeStep : Nat) : String :=
  if !cryptoAvailable then
    let combined := secret ++ colonStr ++ natToString timeStep
    let hash := fallbackHash combined.data
    padStart (natToString (hash % 1000000)) 6 '0'
  else
    let hmac := totpDigest secret timeStep
    padStart (natToString ((totpBinary hmac) % 1000000)) 6 '0'

/-- Independent reference HOTP computation, written from the spec's own
words: offset is the low nibble of the last digest byte, four digest
bytes from that offset are read as a big-endian integer with the most
significant bit of the first byte cleared (here: reduction modulo 128 and
plain positional arithmetic instead of the source's bitwise operators),
then reduced modulo 1_000_000 and zero-padded to six digits. -/
def hotpRef (secret : String) (counter : Nat) : String :=
  let digest := hmacSha1 (utf8Encode secret) (be8 counter)
  let offset := (digest.getD 19 0) % 16
  let binary := ((digest.getD offset 0) % 128) * 16777216 +
                (digest.getD (offset + 1) 0) * 65536 +
                (digest.getD (offset + 2) 0) * 256 +
                digest.getD (offset + 3) 0
  padStart (natToString (binary % 1000000)) 6 '0'

/-- Rolling polynomial hash written from the spec's words: base 31,
starting from 0, unsigned wraparound modulo 2^32 at every step. -/
def specRollingHash (chars : List Char) : Nat :=
  chars.foldl (fun h c => (h * 31 + c.toNat) % 4294967296) 0

/-- The degraded fallback output as the spec describes it: the rolling
hash of "<secret>:<timeStep>", reduced modulo 1_000_000, zero-padded to
six digits. -/
def specFallbackOtp (secret : String) (timeStep : Nat) : String :=
  padStart (natToString (specRollingHash (secret ++ colonStr ++ natToString timeStep).data % 1000000)) 6 '0'

/-! ## Key validation (keySchema in src/App.tsx) -/

/-- Membership of one character (as a scalar value; ASCII here) in the
character class of the schema regex: A-Z (65..90) or 0-9 (48..57). -/
def isKeyChar (c : Char) : Bool :=
  (decide (65 ≤ c.toNat) && decide (c.toNat ≤ 90)) ||
  (decide (48 ≤ c.toNat) && decide (c.toNat ≤ 57))

/-- The test of the schema regex: at least one character, all of them in
the class (the anchors make it a whole-string match). -/
def regexTest (s : String) : Bool :=
  !s.data.isEmpty && s.data.all isKeyChar

/-- The ordered issue list produced by keySchema.safeParse: the min(16)
check, then the max(16) check (both with the length message), then the
regex check.  Zod runs the string checks in declaration order and
collects every failure. -/
def keySchemaIssues (s : String) : List String :=
  (if s.length < 16 then [lengthMsg] else []) ++
  (if 16 < s.length then [lengthMsg] else []) ++
  (if regexTest s then [] else [charsetMsg])

/-- keySchema.safeParse as consumed by handleSaveDevice: success, or the
message of the first issue (result.error.issues[0]).  A pure function:
the embedding has no state to mutate. -/
def keySafeParse (s : String) : Except String String :=
  match keySchemaIssues s with
  | [] => Except.ok s
  | m :: _ => Except.error m

/-! ## Key-input sanitizing (handleKeyInputChange in src/App.tsx) -/

/-- The working buffer and the status message touched by the handler. -/
structure KeyInputState where
  keyInput : String
  status : String
deriving DecidableEq

/-- val.toUpperCase().replace(/[^A-Z0-9]/g, "").  Char.toUpper uppercases
the ASCII letters; the JavaScript Unicode uppercasings that differ are
all erased by the filter anyway for ASCII input, and every theorem below
instantiates this on ASCII strings only. -/
def cleanKeyInput (val : String) : String :=
  String.mk ((val.data.map Char.toUpper).filter isKeyChar)

/-- handleKeyInputChange: when the cleaned text has at most 16
characters it becomes the new buffer and the status is cleared;
otherwise the handler does nothing (the change is blocked and the
previous buffer kept). -/
def handleKeyInputChange (st : KeyInputState) (val : String) : KeyInputState :=
  let cleaned := cleanKeyInput val
  if cleaned.length ≤ 16 then { keyInput := cleaned, status := emptyStr } else st

/-! ## JSON values and JSON.parse (executable model of the builtin used
by the load effect of src/App.tsx) -/

/-- JSON values.  Numbers keep their syntactic parts: sign, integer
digits, fraction digits, exponent sign, exponent digits. -/
inductive JVal where
  | jnull : JVal
  | jbool : Bool → JVal
  | jnum : Bool → List Nat → List Nat → Bool → List Nat → JVal
  | jstr : String → JVal
  | jarr : List JVal → JVal
  | jobj : List (String × JVal) → JVal

/-- JSON whitespace. -/
def jsonWs (c : Char) : Bool :=
  c == ' ' || c == '\t' || c == '\n' || c == '\r'

def skipWs : List Char → List Char
  | [] => []
  | c :: rest => if jsonWs c then skipWs rest else c :: rest

def hexVal (c : Char) : Option Nat :=
  if decide (48 ≤ c.toNat) && decide (c.toNat ≤ 57) then some (c.toNat - 48)
  else if decide (97 ≤ c.toNat) && decide (c.toNat ≤ 102) then some (c.toNat - 87)
  else if decide (65 ≤ c.toNat) && decide (c.toNat ≤ 70) then some (c.toNat - 55)
  else none

def parseHex4 : List Char → Option (Nat × List Char)
  | a :: b :: c :: d :: rest =>
      match hexVal a, hexVal b, hexVal c, hexVal d with
      | some x, some y, some z, some t => some (((x * 16 + y) * 16 + z) * 16 + t, rest)
      | _, _, _, _ => none
  | _ => none

/-- Body of a JSON string literal (after the opening quote), producing
UTF-16 code units; raw control characters are rejected, the standard
escapes and 4-hex-digit escapes are accepted. -/
def parseStrUnits : Nat → List Char → Option (List Nat × List Char)
  | 0, _ => none
  | _, [] => none
  | fuel+1, c :: rest =>
      if c == '"' then some ([], rest)
      else if c == '\\' then
        match rest with
        | [] => none
        | e :: rest2 =>
            if e == '"' then (fun p => (34 :: p.1, p.2)) <$> parseStrUnits fuel rest2
            else if e == '\\' then (fun p => (92 :: p.1, p.2)) <$> parseStrUnits fuel rest2
            else if e == '/' then (fun p => (47 :: p.1, p.2)) <$> parseStrUnits fuel rest2
            else if e == 'b' then (fun p => (8 :: p.1, p.2)) <$> parseStrUnits fuel rest2
            else if e == 'f' then (fun p => (12 :: p.1, p.2)) <$> parseStrUnits fuel rest2
            else if e == 'n' then (fun p => (10 :: p.1, p.2)) <$> parseStrUnits fuel rest2
            else if e == 'r' then (fun p => (13 :: p.1, p.2)) <$> parseStrUnits fuel rest2
            else if e == 't' then (fun p => (9 :: p.1, p.2)) <$> parseStrUnits fuel rest2
            else if e == 'u' then
              match parseHex4 rest2 with
              | none => none
              | some (n, rest3) => (fun p => (n :: p.1, p.2)) <$> parseStrUnits fuel rest3
            else none
      else if decide (c.toNat < 32) then none
      else (fun p => (c.toNat :: p.1, p.2)) <$> parseStrUnits fuel rest

/-- Code units back to scalar values: surrogate pairs are combined; a
lone surrogate (expressible in JavaScript strings but not as a Lean
scalar value) is mapped to U+FFFD.  No theorem below depends on strings
containing lone surrogates. -/
def unitsToChars : List Nat → List Char
  | [] => []
  | [u] =>
      if decide (55296 ≤ u) && decide (u ≤ 57343) then [Char.ofNat 65533]
      else [Char.ofNat u]
  | u :: v :: rest =>
      if decide (55296 ≤ u) && decide (u ≤ 56319) then
        if decide (56320 ≤ v) && decide (v ≤ 57343) then
          Char.ofNat (65536 + (u - 55296) * 1024 + (v - 56320)) :: unitsToChars rest
        else Char.ofNat 65533 :: unitsToChars (v :: rest)
      else if decide (56320 ≤ u) && decide (u ≤ 57343) then
        Char.ofNat 65533 :: unitsToChars (v :: rest)
      else Char.ofNat u :: unitsToChars (v :: rest)

def isDigitChar (c : Char) : Bool :=
  decide (48 ≤ c.toNat) && decide (c.toNat ≤ 57)

def digitVal (c : Char) : Nat := c.toNat - 48

/-- Longest leading run of decimal digits. -/
def takeDigits : List Char → List Nat × List Char
  | [] => ([], [])
  | c :: rest =>
      if isDigitChar c then
        let p := takeDigits rest
        (digitVal c :: p.1, p.2)
      else ([], c :: rest)

/-- Fraction part: a dot followed by at least one digit, or nothing. -/
def parseFrac : List Char → Option (List Nat × List Char)
  | '.' :: rest =>
      match takeDigits rest with
      | ([], _) => none
      | (ds, r) => some (ds, r)
  | other => some ([], other)

/-- Exponent part: e or E, an optional sign, at least one digit, or
nothing.  Returns (sign is negative, digits, rest). -/
def parseExp : List Char → Option (Bool × List Nat × List Char)
  | c :: rest =>
      if c == 'e' || c == 'E' then
        match rest with
        | '+' :: rest2 =>
            match takeDigits rest2 with
            | ([], _) => none
            | (ds, r) => some (false, ds, r)
        | '-' :: rest2 =>
            match takeDigits rest2 with
            | ([], _) => none
            | (ds, r) => some (true, ds, r)
        | other =>
            match takeDigits other with
            | ([], _) => none
            | (ds, r) => some (false, ds, r)
      else some (false, [], c :: rest)
  | [] => some (false, [], [])

/-- Number after the optional minus sign: integer part is a single 0 or
a nonzero digit followed by digits, then fraction and exponent. -/
def parseNumTail (neg : Bool) : List Char → Option (JVal × List Char)
  | [] => none
  | c :: rest =>
      if c == '0' then
        match parseFrac rest with
        | none => none
        | some (fr, r1) =>
            match parseExp r1 with
            | none => none
            | some (es, ed, r2) => some (JVal.jnum neg [0] fr es ed, r2)
      else if isDigitChar c then
        let p := takeDigits rest
        match parseFrac p.2 with
        | none => none
        | some (fr, r1) =>
            match parseExp r1 with
            | none => none
            | some (es, ed, r2) => some (JVal.jnum neg (digitVal c :: p.1) fr es ed, r2)
      else none

mutual

/-- One JSON value, leading whitespace allowed.  The fuel decreases at
every nesting level; every level consumes at least one character, so
instantiating the fuel with the input length plus one never exhausts it
on inputs JSON.parse accepts. -/
def parseVal : Nat → List Char → Option (JVal × List Char)
  | 0, _ => none
  | fuel+1, input =>
      match skipWs input with
      | [] => none
      | c :: rest =>
          if c == '\x7b' then
            match skipWs rest with
            | '\x7d' :: rest2 => some (JVal.jobj [], rest2)
            | other => parseMembers fuel other []
          else if c == '[' then
            match skipWs rest with
            | ']' :: rest2 => some (JVal.jarr [], rest2)
            | other => parseElems fuel other []
          else if c == '"' then
            match parseStrUnits (rest.length + 1) rest with
            | none => none
            | some (units, rest2) => some (JVal.jstr (String.mk (unitsToChars units)), rest2)
          else if c == '-' then parseNumTail true rest
          else if isDigitChar c then parseNumTail false (c :: rest)
          else if c == 't' then
            match rest with
            | 'r' :: 'u' :: 'e' :: rest2 => some (JVal.jbool true, rest2)
            | _ => none
          else if c == 'f' then
            match rest with
            | 'a' :: 'l' :: 's' :: 'e' :: rest2 => some (JVal.jbool false, rest2)
            | _ => none
          else if c == 'n' then
            match rest with
            | 'u' :: 'l' :: 'l' :: rest2 => some (JVal.jnull, rest2)
            | _ => none
          else none

/-- Members of an object, positioned at the first character of a key
string (whitespace already skipped, the empty-object case already
handled by parseVal). -/
def parseMembers : Nat → List Char → List (String × JVal) → Option (JVal × List Char)
  | 0, _, _ => none
  | fuel+1, input, acc =>
      match input with
      | '"' :: rest =>
          match parseStrUnits (rest.length + 1) rest with
          | none => none
          | some (units, rest2) =>
              let key := String.mk (unitsToChars units)
              match skipWs rest2 with
              | ':' :: rest3 =>
                  match parseVal fuel rest3 with
                  | none => none
                  | some (v, rest4) =>
                      match skipWs rest4 with
                      | ',' :: rest5 => parseMembers fuel (skipWs rest5) (acc ++ [(key, v)])
                      | '\x7d' :: rest5 => some (JVal.jobj (acc ++ [(key, v)]), rest5)
                      | _ => none
              | _ => none
      | _ => none

/-- Elements of an array, positioned at the first element (the empty
array already handled by parseVal). -/
def parseElems : Nat → List Char → List JVal → Option (JVal × List Char)
  | 0, _, _ => none
  | fuel+1, input, acc =>
      match parseVal fuel input with
      | none => none
      | some (v, rest) =>
          match skipWs rest with
          | ',' :: rest2 => parseElems fuel rest2 (acc ++ [v])
          | ']' :: rest2 => some (JVal.jarr (acc ++ [v]), rest2)
          | _ => none

end

/-- JSON.parse: one value, trailing whitespace only; anything else
throws in JavaScript, modelled as none. -/
def jsonParse (s : String) : Option JVal :=
  match parseVal (s.length + 1) s.data with
  | none => none
  | some (v, rest) => if (skipWs rest).isEmpty then some v else none

/-! ## The load effect and the reset handler of src/App.tsx -/

/-- Last binding of a key in an object literal (later duplicate keys win
in JavaScript). -/
def lookupField (fields : List (String × JVal)) (k : String) : Option JVal :=
  fields.foldl (fun acc p => if p.1 == k then some p.2 else acc) none

/-- Property access parsed.readableKey: a field of an object, undefined
(none) on any non-object.  Property access on null throws in JavaScript;
the load effect catches that and lands on the same setup outcome as the
falsy cases, so none is the faithful observable result there too. -/
def getField : JVal → String → Option JVal
  | JVal.jobj fields, k => lookupField fields k
  | _, _ => none

/-- JavaScript truthiness of a JSON value.  For numbers the exact value
is used (all mantissa digits zero means falsy); the double-precision
underflow corners (tiny exponents) are not modelled, and no theorem
below evaluates truthiness on a number. -/
def jtruthy : JVal → Bool
  | JVal.jnull => false
  | JVal.jbool b => b
  | JVal.jnum _ i f _ _ => !(i.all (fun d => d == 0) && f.all (fun d => d == 0))
  | JVal.jstr s => !s.data.isEmpty
  | JVal.jarr _ => true
  | JVal.jobj _ => true

/-- The load effect of src/App.tsx over the stored blob: absent key or
empty string is falsy, JSON.parse failure is caught, and the parsed
value is kept (with the otp screen) exactly when parsed.readableKey is
truthy; every other path lands on the setup screen, modelled as none.
The whole body is inside try/catch, so the caller never sees a throw:
this embedding is a total function. -/
def loadDevice (stored : Option String) : Option JVal :=
  match stored with
  | none => none
  | some raw =>
      if raw.data.isEmpty then none
      else
        match jsonParse raw with
        | none => none
        | some parsed =>
            match getField parsed readableKeyField with
            | none => none
            | some v => if jtruthy v then some parsed else none

/-- The three screens of the app. -/
inductive Screen where
  | loading : Screen
  | setup : Screen
  | otp : Screen
deriving DecidableEq

/-- The pieces of component state touched by handleResetDevice, plus the
storage entry it deletes. -/
structure AppResetState where
  storage : Option String
  config : Option JVal
  currentOtp : String
  secondsLeft : Nat
  status : String
  keyInput : String
  screen : Screen
  otpHighlight : Bool

/-- handleResetDevice: remove the storage entry, clear config, code,
countdown, status and key input, return to the setup screen.  (The
highlight flag is not touched by the handler.) -/
def handleResetDevice (s : AppResetState) : AppResetState :=
  { s with storage := none, config := none, currentOtp := emptyStr,
           secondsLeft := 30, status := emptyStr, keyInput := emptyStr,
           screen := Screen.setup }

/-! ## The OTP refresh effect of src/App.tsx as an event-step machine

One effect run corresponds to one execution of the otp-screen useEffect
body: it captures a fresh isCancelled flag (identified below by a run
id), spawns the initial updateOtp, runs tick once, and installs the 1 Hz
interval.  The cleanup returned by the effect sets the flag and clears
the interval — and nothing else: in particular the 250 ms highlight-reset
timeouts registered by resolved computations stay pending, and their
callback is not guarded by the flag. -/

/-- Published component state plus the bookkeeping of the effect runs:
the run with the live interval (id and captured key), the next fresh run
id, the ids whose isCancelled flag is set, the in-flight updateOtp
computations (run id and captured key), and the registered but unfired
highlight-reset timeouts (run id that registered each). -/
structure OtpRunState where
  activeRun : Option (Nat × String)
  nextId : Nat
  cancelled : List Nat
  currentOtp : String
  secondsLeft : Nat
  otpHighlight : Bool
  pendingOtps : List (Nat × String)
  pendingHighlightClears : List Nat
deriving DecidableEq

/-- The events the effect reacts to.  resolveOk and resolveErr settle an
in-flight computation (asynchronously, any number of ticks later);
fireHighlightClear is the 250 ms timeout callback registered by a
resolved computation. -/
inductive OtpEvent where
  | start : String → Nat → OtpEvent
  | tick : Nat → OtpEvent
  | resolveOk : Nat → String → OtpEvent
  | resolveErr : Nat → OtpEvent
  | fireHighlightClear : Nat → OtpEvent
  | cleanup : OtpEvent

/-- updateOtp(): spawn one asynchronous computation bound to the given
run (its isCancelled flag) and its captured key. -/
def spawnUpdate (s : OtpRunState) (rid : Nat) (key : String) : OtpRunState :=
  { s with pendingOtps := s.pendingOtps ++ [(rid, key)] }

/-- tick(): publish secondsRemaining = 30 - (nowSec % 30) and call
updateOtp() exactly when it equals 30. -/
def tickRun (s : OtpRunState) (rid : Nat) (key : String) (now : Nat) : OtpRunState :=
  let remaining := 30 - now % 30
  let s1 := { s with secondsLeft := remaining }
  if remaining = 30 then spawnUpdate s1 rid key else s1

/-- Drop the first in-flight entry of the given run id. -/
def removeFirstRun : List (Nat × String) → Nat → List (Nat × String)
  | [], _ => []
  | p :: rest, rid => if p.1 = rid then rest else p :: removeFirstRun rest rid

/-- Drop the first registered timeout of the given run id. -/
def removeFirstNat : List Nat → Nat → List Nat
  | [], _ => []
  | n :: rest, rid => if n = rid then rest else n :: removeFirstNat rest rid

/-- One event step of the effect machine.  start is only reachable with
no active run (React runs the previous cleanup before re-running the
effect); a tick with no active run is unreachable for the cleared
interval and leaves the state unchanged. -/
def stepEvent (s : OtpRunState) (e : OtpEvent) : OtpRunState :=
  match e with
  | OtpEvent.start key now =>
      match s.activeRun with
      | some _ => s
      | none =>
          let rid := s.nextId
          let s1 := { s with activeRun := some (rid, key), nextId := s.nextId + 1 }
          let s2 := spawnUpdate s1 rid key
          tickRun s2 rid key now
  | OtpEvent.tick now =>
      match s.activeRun with
      | none => s
      | some (rid, key) => tickRun s rid key now
  | OtpEvent.resolveOk rid otp =>
      if s.pendingOtps.any (fun p => p.1 == rid) then
        let s1 := { s with pendingOtps := removeFirstRun s.pendingOtps rid }
        if rid ∈ s.cancelled then s1
        else { s1 with otpHighlight := true, currentOtp := otp,
                       pendingHighlightClears := s1.pendingHighlightClears ++ [rid] }
      else s
  | OtpEvent.resolveErr rid =>
      if s.pendingOtps.any (fun p => p.1 == rid) then
        let s1 := { s with pendingOtps := removeFirstRun s.pendingOtps rid }
        if rid ∈ s.cancelled then s1
        else { s1 with currentOtp := dashesStr }
      else s
  | OtpEvent.fireHighlightClear rid =>
      if rid ∈ s.pendingHighlightClears then
        { s with pendingHighlightClears := removeFirstNat s.pendingHighlightClears rid,
                 otpHighlight := false }
      else s
  | OtpEvent.cleanup =>
      match s.activeRun with
      | none => s
      | some (rid, _) =>
          { s with activeRun := none, cancelled := s.cancelled ++ [rid] }

/-- The state before the otp screen is first entered. -/
def initialOtpState : OtpRunState :=
  { activeRun := none, nextId := 0, cancelled := [], currentOtp := emptyStr,
    secondsLeft := 30, otpHighlight := false, pendingOtps := [],
    pendingHighlightClears := [] }

/-- Run a list of events from a state. -/
def runEvents (s : OtpRunState) (es : List OtpEvent) : OtpRunState :=
  es.foldl stepEvent s

/-- The structural invariant of reachable states: every in-flight
computation whose run is not cancelled belongs to the run holding the
live interval, and run ids (cancelled or active) are below the next
fresh id. -/
def wfOtp (s : OtpRunState) : Prop :=
  (∀ p ∈ s.pendingOtps, p.1 ∉ s.cancelled → s.activeRun = some p) ∧
  (∀ rid ∈ s.cancelled, rid < s.nextId) ∧
  (∀ r, s.activeRun = some r → r.1 < s.nextId)

/-! ## Supporting lemmas -/

set_option maxRecDepth 100000

/-- Known-answer check of the SHA-1 model: the RFC 3174 vector for the
three-byte message abc. -/
theorem sha1_abc_vector :
    sha1 [97, 98, 99] = [169, 153, 62, 54, 71, 6, 129, 106, 186, 62, 37, 113,
      120, 80, 194, 108, 156, 208, 216, 157] := by
  decide

/-- Masking with 255 keeps a byte below 256. -/
theorem and_255_lt (x : Nat) : x &&& 255 < 256 :=
  lt_of_le_of_lt Nat.and_le_right (by norm_num)

/-- The SHA-1 model always yields a 20-byte digest. -/
theorem sha1_length (msg : List Nat) : (sha1 msg).length = 20 := by
  simp [sha1, sha1Out, wordBE4]

/-- Every byte of a SHA-1 digest is below 256. -/
theorem sha1_bytes_lt (msg : List Nat) : ∀ b ∈ sha1 msg, b < 256 := by
  intro b hb
  simp [sha1, sha1Out, wordBE4, List.mem_append, List.mem_cons] at hb
  rcases hb with rfl | rfl | rfl | rfl | rfl | rfl | rfl | rfl | rfl | rfl |
    rfl | rfl | rfl | rfl | rfl | rfl | rfl | rfl | rfl | rfl <;> exact and_255_lt _

/-- Digit characters of values below ten are ASCII decimal digits. -/
theorem digitChar_isDigit (m : Nat) (h : m < 10) : (Nat.digitChar m).isDigit = true := by
  interval_cases m <;> decide

/-- The decimal rendering of n below 10^k has at most k digits. -/
theorem toDecimalAux_length_le (fuel : Nat) : ∀ n k, n < fuel → n < 10 ^ k → 1 ≤ k →
    (toDecimalAux fuel n).length ≤ k := by
  induction fuel with
  | zero => intro n k hn; omega
  | succ f ih =>
      intro n k hn hk hk1
      by_cases h10 : n < 10
      · simp [toDecimalAux, h10]; omega
      · have hk2 : 2 ≤ k := by
          by_contra hcon
          have : k = 1 := by omega
          subst this
          simp at hk
          omega
        have hrec : (toDecimalAux f (n / 10)).length ≤ k - 1 := by
          apply ih
          · have : n / 10 < n := Nat.div_lt_self (by omega) (by norm_num)
            omega
          · have : n < 10 ^ (k - 1) * 10 := by
              have : 10 ^ (k - 1) * 10 = 10 ^ k := by
                rw [← pow_succ]
                congr 1
                omega
              omega
            exact (Nat.div_lt_iff_lt_mul (by norm_num)).mpr this
          · omega
        simp [toDecimalAux, h10]
        omega

/-- Every character of the decimal rendering is a decimal digit. -/
theorem toDecimalAux_digits (fuel : Nat) : ∀ n, ∀ c ∈ toDecimalAux fuel n, c.isDigit = true := by
  induction fuel with
  | zero => intro n c hc; simp [toDecimalAux] at hc
  | succ f ih =>
      intro n c hc
      by_cases h10 : n < 10
      · simp [toDecimalAux, h10] at hc
        subst hc
        exact digitChar_isDigit n h10
      · simp [toDecimalAux, h10, List.mem_append] at hc
        rcases hc with h | h
        · exact ih _ _ h
        · subst h
          exact digitChar_isDigit _ (Nat.mod_lt _ (by norm_num))

/-- Rendering a value below 1_000_000 and padding to six characters gives
exactly six decimal digit characters. -/
theorem padOtp_format (m : Nat) (hm : m < 1000000) :
    (padStart (natToString m) 6 '0').length = 6 ∧
    ∀ c ∈ (padStart (natToString m) 6 '0').data, c.isDigit = true := by
  have hlen : (toDecimalAux (m + 1) m).length ≤ 6 :=
    toDecimalAux_length_le (m + 1) m 6 (by omega) (by norm_num; omega) (by norm_num)
  constructor
  · simp [padStart, natToString, String.length]
    omega
  · intro c hc
    simp [padStart, natToString, List.mem_append] at hc
    rcases hc with ⟨-, h⟩ | h
    · subst h; decide
    · exact toDecimalAux_digits _ _ _ h

/-- A string whose character list is empty parses as a JSON error. -/
theorem jsonParse_empty (raw : String) (h : raw.data = []) : jsonParse raw = none := by
  obtain ⟨d⟩ := raw
  simp at h
  subst h
  rfl

/-! ## Claim theorems -/

set_option maxHeartbeats 4000000 in
/-- Claim C1: for secret AAAAAAAAAAAAAAAA and each timeStep in 0, 1, 1000,
the primary path of the TOTP engine (8-byte big-endian counter,
HMAC-SHA1, dynamic truncation with the low nibble of the last byte as
offset, 0x7f mask on the first extracted byte, big-endian read of four
bytes, reduction modulo 1_000_000, zero-padding to six digits) returns
exactly the 6-digit string of the independent reference HOTP computation
on the same inputs. -/
theorem primary_matches_hotp_reference :
    generateTotpForStep true secretA 0 = hotpRef secretA 0 ∧
    generateTotpForStep true secretA 1 = hotpRef secretA 1 ∧
    generateTotpForStep true secretA 1000 = hotpRef secretA 1000 := by
  decide

/-- Claim C2, counterexample: a raw input of seventeen lowercase letters
cleans to seventeen characters, and the handler then leaves the working
buffer unchanged (here: empty) instead of truncating to the first
sixteen cleaned characters. -/
theorem sanitize_cex :
    (cleanKeyInput len17LowerStr).length = 17 ∧
    handleKeyInputChange ⟨emptyStr, emptyStr⟩ len17LowerStr = ⟨emptyStr, emptyStr⟩ ∧
    (handleKeyInputChange ⟨emptyStr, emptyStr⟩ len17LowerStr).keyInput ≠ secretA := by
  decide

/-- Claim C2 as amended: the handler uppercases and strips every
character outside A-Z0-9; when the cleaned text has at most sixteen
characters it becomes the working buffer (and the status is cleared),
and when it is longer the change is rejected and the previous state kept
unchanged — there is no truncation. -/
theorem sanitize_amended (st : KeyInputState) (val : String) :
    (∀ c ∈ (cleanKeyInput val).data, isKeyChar c = true) ∧
    ((cleanKeyInput val).length ≤ 16 →
      handleKeyInputChange st val = ⟨cleanKeyInput val, emptyStr⟩) ∧
    (16 < (cleanKeyInput val).length → handleKeyInputChange st val = st) := by
  refine ⟨?_, ?_, ?_⟩
  · intro c hc
    simp [cleanKeyInput] at hc
    exact hc.2
  · intro h
    simp [handleKeyInputChange, h]
  · intro h
    have : ¬ (cleanKeyInput val).length ≤ 16 := by omega
    simp [handleKeyInputChange, this]

/-- Witness for the amended Claim C2, at a concrete sixteen-character
lowercase input that cleans to the canonical example key. -/
theorem sanitize_amended_witness :
    handleKeyInputChange ⟨emptyStr, emptyStr⟩ lower16Str = ⟨keyOkStr, emptyStr⟩ := by
  have h := (sanitize_amended ⟨emptyStr, emptyStr⟩ lower16Str).2.1 (by decide)
  rw [h]
  decide

/-- Claim C3, counterexample: a stored blob whose readableKey field is
the three-character lowercase string abc — which fails the
sixteen-character A-Z0-9 invariant — is still returned as the device
configuration by the load effect (it only checks truthiness, never the
pattern). -/
theorem load_device_cex :
    loadDevice (some cfgAbcStr) = some (JVal.jobj [(readableKeyField, JVal.jstr abcStr)]) ∧
    regexTest abcStr = false ∧ abcStr.length ≠ 16 := by
  refine ⟨by rfl, by decide, by decide⟩

/-- Claim C3 as amended: the load effect is a total function (every
failure of the underlying parse is caught and becomes the none outcome
routing to setup); it returns none when the storage key is absent, the
blob is not well-formed JSON, the readableKey field is missing, or the
field is an empty string; and it returns the parsed configuration
whenever the readableKey field is a non-empty string, with no validation
of the sixteen-character A-Z0-9 invariant. -/
theorem load_device_behavior :
    (loadDevice none = none) ∧
    (∀ raw : String, jsonParse raw = none → loadDevice (some raw) = none) ∧
    (∀ raw v, jsonParse raw = some v → getField v readableKeyField = none →
      loadDevice (some raw) = none) ∧
    (∀ raw v str, jsonParse raw = some v →
      getField v readableKeyField = some (JVal.jstr str) → str.data = [] →
      loadDevice (some raw) = none) ∧
    (∀ raw v str, jsonParse raw = some v →
      getField v readableKeyField = some (JVal.jstr str) → str.data ≠ [] →
      loadDevice (some raw) = some v) := by
  refine ⟨rfl, ?_, ?_, ?_, ?_⟩
  · intro raw hp
    by_cases h : raw.data.isEmpty <;> simp [loadDevice, h, hp]
  · intro raw v hp hf
    have hne : ¬ raw.data.isEmpty := by
      intro hE
      rw [jsonParse_empty raw (List.isEmpty_iff.mp hE)] at hp
      exact Option.noConfusion hp
    simp [loadDevice, hne, hp, hf]
  · intro raw v str hp hf hE
    have hne : ¬ raw.data.isEmpty := by
      intro hE2
      rw [jsonParse_empty raw (List.isEmpty_iff.mp hE2)] at hp
      exact Option.noConfusion hp
    simp [loadDevice, hne, hp, hf, jtruthy, hE]
  · intro raw v str hp hf hE
    have hne : ¬ raw.data.isEmpty := by
      intro hE2
      rw [jsonParse_empty raw (List.isEmpty_iff.mp hE2)] at hp
      exact Option.noConfusion hp
    simp [loadDevice, hne, hp, hf, jtruthy, hE]

/-- Witness for the amended Claim C3: a concrete malformed blob loads as
none. -/
theorem load_device_behavior_witness :
    loadDevice (some badJsonStr) = none :=
  load_device_behavior.2.1 badJsonStr (by rfl)

/-- Claim C4: for every crypto availability, secret and timeStep, the
string returned by the OTP computation — primary and fallback path alike
— is exactly six ASCII decimal digits, left-padded with zeros. -/
theorem totp_output_format (avail : Bool) (secret : String) (timeStep : Nat) :
    (generateTotpForStep avail secret timeStep).length = 6 ∧
    ∀ c ∈ (generateTotpForStep avail secret timeStep).data, c.isDigit = true := by
  cases avail <;>
    simp only [generateTotpForStep, Bool.not_false, Bool.not_true, if_true, if_false,
      Bool.false_eq_true, Bool.true_eq_false] <;>
    exact padOtp_format _ (Nat.mod_lt _ (by norm_num))

/-- Claim C5: validation fails with the length message for every
candidate whose length is not sixteen (the length issue also comes first
when the charset is violated as well), fails with the charset message
for every sixteen-character candidate containing a character outside
A-Z0-9, and accepts the example key; the validator is a pure function,
so it has no side effects. -/
theorem key_validation (s : String) :
    (s.length ≠ 16 → keySafeParse s = Except.error lengthMsg) ∧
    (s.length = 16 → (∃ c ∈ s.data, isKeyChar c = false) →
      keySafeParse s = Except.error charsetMsg) ∧
    keySafeParse keyOkStr = Except.ok keyOkStr := by
  refine ⟨?_, ?_, by rfl⟩
  · intro h
    by_cases hlt : s.length < 16
    · simp [keySafeParse, keySchemaIssues, hlt]
    · have hgt : 16 < s.length := by omega
      simp [keySafeParse, keySchemaIssues, hlt, hgt]
  · intro h16 hbad
    have hall : s.data.all isKeyChar = false := by
      rcases hbad with ⟨c, hc, hfc⟩
      rw [List.all_eq_false]
      exact ⟨c, hc, by simp [hfc]⟩
    have hre : regexTest s = false := by
      simp [regexTest, hall]
    simp [keySafeParse, keySchemaIssues, h16, hre]

/-- Witness for Claim C5: a fifteen-character candidate fails with the
length message, a sixteen-character lowercase candidate with the charset
message. -/
theorem key_validation_witness :
    keySafeParse len15Str = Except.error lengthMsg ∧
    keySafeParse lower16Str = Except.error charsetMsg :=
  ⟨(key_validation len15Str).1 (by decide),
   (key_validation lower16Str).2.1 (by decide) ⟨'a', by decide, by decide⟩⟩

/-- Claim C6: on the degraded fallback path the output equals the 32-bit
unsigned rolling polynomial hash (base 31, wraparound modulo 2^32,
starting from 0) of the character codes of secret-colon-timeStep, taken
modulo 1_000_000 and zero-padded to six digits — exact integer
arithmetic, for every secret and timeStep. -/
theorem fallback_matches_spec_hash (secret : String) (timeStep : Nat) :
    generateTotpForStep false secret timeStep = specFallbackOtp secret timeStep := rfl

/-- Claim C7: while a run is active, every tick publishes
secondsRemaining = 30 - (now mod 30), which stays between 1 and 30,
equals 30 exactly when now mod 30 = 0, spawns a new OTP computation
exactly at such a tick, and between consecutive ticks decreases by one
except at the reset to 30. -/
theorem tick_window_alignment (s : OtpRunState) (rid : Nat) (key : String) (now : Nat)
    (h : s.activeRun = some (rid, key)) :
    ((stepEvent s (OtpEvent.tick now)).secondsLeft = 30 - now % 30) ∧
    (1 ≤ (stepEvent s (OtpEvent.tick now)).secondsLeft ∧
      (stepEvent s (OtpEvent.tick now)).secondsLeft ≤ 30) ∧
    ((stepEvent s (OtpEvent.tick now)).secondsLeft = 30 ↔ now % 30 = 0) ∧
    ((stepEvent s (OtpEvent.tick now)).pendingOtps.length =
      s.pendingOtps.length + (if now % 30 = 0 then 1 else 0)) ∧
    ((stepEvent s (OtpEvent.tick (now + 1))).secondsLeft =
      if (now + 1) % 30 = 0 then 30 else (stepEvent s (OtpEvent.tick now)).secondsLeft - 1) := by
  have e1 : ∀ m : Nat, (stepEvent s (OtpEvent.tick m)).secondsLeft = 30 - m % 30 := by
    intro m
    simp only [stepEvent, h, tickRun, spawnUpdate]
    split <;> simp
  have h30 : now % 30 < 30 := Nat.mod_lt _ (by norm_num)
  refine ⟨e1 now, ?_, ?_, ?_, ?_⟩
  · rw [e1 now]
    omega
  · rw [e1 now]
    omega
  · simp only [stepEvent, h, tickRun, spawnUpdate]
    split
    · next hcond =>
        have h0 : now % 30 = 0 := by omega
        simp [h0, List.length_append]
    · next hcond =>
        have h0 : ¬ now % 30 = 0 := by omega
        simp [h0]
  · rw [e1 now, e1 (now + 1)]
    split <;> omega

/-- Witness for Claim C7, on the state reached after starting a run. -/
theorem tick_window_alignment_witness :
    (stepEvent (runEvents initialOtpState [OtpEvent.start oldKeyStr 5])
      (OtpEvent.tick 60)).secondsLeft = 30 - 60 % 30 :=
  (tick_window_alignment (runEvents initialOtpState [OtpEvent.start oldKeyStr 5])
    0 oldKeyStr 60 (by decide)).1

/-- Claim C8, counterexample: after a run resolves (registering a 250 ms
highlight-clear timeout) and the secret is replaced, the prior run's
timeout is still registered (not cleared by the cleanup, even though the
run id is cancelled); once the new run resolves and sets the transient
highlight, firing the stale timeout clears the new run's highlight while
the new run is active — the prior run is not fully stopped. -/
theorem stale_highlight_cex :
    ((runEvents initialOtpState
        [OtpEvent.start oldKeyStr 5, OtpEvent.resolveOk 0 otpOneStr, OtpEvent.cleanup,
         OtpEvent.start newKeyStr 65]).pendingHighlightClears = [0]) ∧
    (0 ∈ (runEvents initialOtpState
        [OtpEvent.start oldKeyStr 5, OtpEvent.resolveOk 0 otpOneStr, OtpEvent.cleanup,
         OtpEvent.start newKeyStr 65]).cancelled) ∧
    ((runEvents initialOtpState
        [OtpEvent.start oldKeyStr 5, OtpEvent.resolveOk 0 otpOneStr, OtpEvent.cleanup,
         OtpEvent.start newKeyStr 65, OtpEvent.resolveOk 1 otpTwoStr]).otpHighlight = true) ∧
    ((runEvents initialOtpState
        [OtpEvent.start oldKeyStr 5, OtpEvent.resolveOk 0 otpOneStr, OtpEvent.cleanup,
         OtpEvent.start newKeyStr 65, OtpEvent.resolveOk 1 otpTwoStr,
         OtpEvent.fireHighlightClear 0]).otpHighlight = false) ∧
    ((runEvents initialOtpState
        [OtpEvent.start oldKeyStr 5, OtpEvent.resolveOk 0 otpOneStr, OtpEvent.cleanup,
         OtpEvent.start newKeyStr 65, OtpEvent.resolveOk 1 otpTwoStr,
         OtpEvent.fireHighlightClear 0]).currentOtp = otpTwoStr) ∧
    ((runEvents initialOtpState
        [OtpEvent.start oldKeyStr 5, OtpEvent.resolveOk 0 otpOneStr, OtpEvent.cleanup,
         OtpEvent.start newKeyStr 65, OtpEvent.resolveOk 1 otpTwoStr,
         OtpEvent.fireHighlightClear 0]).activeRun = some (1, newKeyStr)) := by
  decide

/-- Claim C8 as amended: on leaving the running state the clock is
cancelled immediately (no tick changes the state afterwards); a
computation resolving after its run's cancellation is discarded and
updates neither the code, the countdown, the highlight, nor the timeout
registry; and after replacing the secret every in-flight computation not
yet cancelled belongs to the new run and carries the new secret.  The
250 ms highlight-clear timeouts of the prior run, however, are not
cleared — see the counterexample. -/
theorem cancellation_semantics (s : OtpRunState) (hwf : wfOtp s) :
    ((stepEvent s OtpEvent.cleanup).activeRun = none) ∧
    (∀ now, stepEvent (stepEvent s OtpEvent.cleanup) (OtpEvent.tick now) =
      stepEvent s OtpEvent.cleanup) ∧
    (∀ rid otp, rid ∈ s.cancelled →
      (stepEvent s (OtpEvent.resolveOk rid otp)).currentOtp = s.currentOtp ∧
      (stepEvent s (OtpEvent.resolveOk rid otp)).secondsLeft = s.secondsLeft ∧
      (stepEvent s (OtpEvent.resolveOk rid otp)).otpHighlight = s.otpHighlight ∧
      (stepEvent s (OtpEvent.resolveOk rid otp)).pendingHighlightClears =
        s.pendingHighlightClears) ∧
    (∀ rid, rid ∈ s.cancelled →
      (stepEvent s (OtpEvent.resolveErr rid)).currentOtp = s.currentOtp ∧
      (stepEvent s (OtpEvent.resolveErr rid)).otpHighlight = s.otpHighlight) ∧
    (∀ newKey now p,
      p ∈ (stepEvent (stepEvent s OtpEvent.cleanup) (OtpEvent.start newKey now)).pendingOtps →
      p.1 ∉ (stepEvent (stepEvent s OtpEvent.cleanup) (OtpEvent.start newKey now)).cancelled →
      p.2 = newKey) := by
  have ha : (stepEvent s OtpEvent.cleanup).activeRun = none := by
    cases hA : s.activeRun with
    | none => simp [stepEvent, hA]
    | some r => cases r; simp [stepEvent, hA]
  refine ⟨ha, ?_, ?_, ?_, ?_⟩
  · intro now
    generalize hS : stepEvent s OtpEvent.cleanup = s2 at ha ⊢
    simp only [stepEvent, ha]
  · intro rid otp hc
    simp only [stepEvent]
    split
    · simp [hc]
    · simp
  · intro rid hc
    simp only [stepEvent]
    split
    · simp [hc]
    · simp
  · intro newKey now p hp hnc
    cases hA : s.activeRun with
    | none =>
        have hclean : stepEvent s OtpEvent.cleanup = s := by
          simp [stepEvent, hA]
        rw [hclean] at hp hnc
        simp only [stepEvent, hA, tickRun, spawnUpdate] at hp hnc
        by_cases hsp : 30 - now % 30 = 30
        · simp only [hsp, if_true, eq_self_iff_true] at hp hnc
          simp [List.mem_append] at hp hnc
          rcases hp with hp | hp
          · have := hwf.1 p hp hnc
            rw [hA] at this
            exact Option.noConfusion this
          · simp [hp]
        · simp only [hsp, if_false] at hp hnc
          simp [hsp, List.mem_append] at hp hnc
          rcases hp with hp | hp
          · have := hwf.1 p hp hnc
            rw [hA] at this
            exact Option.noConfusion this
          · simp [hp]
    | some r =>
        cases r with
        | mk arid akey =>
        have hclean : stepEvent s OtpEvent.cleanup =
            { s with activeRun := none, cancelled := s.cancelled ++ [arid] } := by
          simp [stepEvent, hA]
        rw [hclean] at hp hnc
        simp only [stepEvent, tickRun, spawnUpdate] at hp hnc
        by_cases hsp : 30 - now % 30 = 30
        · simp only [hsp, if_true, eq_self_iff_true] at hp hnc
          simp [List.mem_append, not_or] at hp hnc
          rcases hp with hp | hp
          · have := hwf.1 p hp hnc.1
            rw [hA] at this
            have hpe : p = (arid, akey) := by
              cases p
              exact (Option.some.injEq _ _).mp this.symm
            exact absurd (by simp [hpe]) hnc.2
          · simp [hp]
        · simp only [hsp, if_false] at hp hnc
          simp [List.mem_append, not_or] at hp hnc
          rcases hp with hp | hp
          · have := hwf.1 p hp hnc.1
            rw [hA] at this
            have hpe : p = (arid, akey) := by
              cases p
              exact (Option.some.injEq _ _).mp this.symm
            exact absurd (by simp [hpe]) hnc.2
          · simp [hp]

/-- Witness for the amended Claim C8, at the well-formed initial state. -/
theorem cancellation_semantics_witness :
    (stepEvent initialOtpState OtpEvent.cleanup).activeRun = none :=
  (cancellation_semantics initialOtpState
    (by refine ⟨?_, ?_, ?_⟩ <;> simp [initialOtpState, wfOtp])).1

/-- Claim C9: resetDevice is idempotent — it never errors (the embedding
is a total function, also from the unpaired state), a second reset
leaves the state of the first, and loading after a reset yields none
because the stored blob is deleted. -/
theorem reset_idempotent (s : AppResetState) :
    handleResetDevice (handleResetDevice s) = handleResetDevice s ∧
    loadDevice (handleResetDevice s).storage = none :=
  ⟨rfl, rfl⟩

/-- Claim C10: the truncation offset extracted by the primary path is at
most 15, so the four indexed bytes lie inside the 20-byte HMAC-SHA1
digest, and the assembled 31-bit value is strictly below 2^31 thanks to
the 0x7f mask on the first byte. -/
theorem truncation_in_bounds (secret : String) (timeStep : Nat) :
    totpOffset (totpDigest secret timeStep) ≤ 15 ∧
    totpOffset (totpDigest secret timeStep) + 3 < (totpDigest secret timeStep).length ∧
    totpBinary (totpDigest secret timeStep) < 2 ^ 31 := by
  have hlen : (totpDigest secret timeStep).length = 20 := sha1_length _
  have hoff : totpOffset (totpDigest secret timeStep) ≤ 15 := by
    have := Nat.and_le_right (n := (totpDigest secret timeStep).getD ((totpDigest secret timeStep).length - 1) 0) (m := 15)
    simpa [totpOffset] using this
  refine ⟨hoff, by omega, ?_⟩
  set d := totpDigest secret timeStep with hd
  have h1 : (d.getD (totpOffset d) 0 &&& 127) <<< 24 < 2 ^ 31 := by
    rw [Nat.shiftLeft_eq]
    have hb : d.getD (totpOffset d) 0 &&& 127 < 128 :=
      lt_of_le_of_lt Nat.and_le_right (by norm_num)
    calc (d.getD (totpOffset d) 0 &&& 127) * 2 ^ 24 < 128 * 2 ^ 24 := by
          exact (Nat.mul_lt_mul_right (by norm_num)).mpr hb
      _ = 2 ^ 31 := by norm_num
  have h2 : (d.getD (totpOffset d + 1) 0 &&& 255) <<< 16 < 2 ^ 31 := by
    rw [Nat.shiftLeft_eq]
    have hb := and_255_lt (d.getD (totpOffset d + 1) 0)
    calc (d.getD (totpOffset d + 1) 0 &&& 255) * 2 ^ 16 < 256 * 2 ^ 16 := by
          exact (Nat.mul_lt_mul_right (by norm_num)).mpr hb
      _ ≤ 2 ^ 31 := by norm_num
  have h3 : (d.getD (totpOffset d + 2) 0 &&& 255) <<< 8 < 2 ^ 31 := by
    rw [Nat.shiftLeft_eq]
    have hb := and_255_lt (d.getD (totpOffset d + 2) 0)
    calc (d.getD (totpOffset d + 2) 0 &&& 255) * 2 ^ 8 < 256 * 2 ^ 8 := by
          exact (Nat.mul_lt_mul_right (by norm_num)).mpr hb
      _ ≤ 2 ^ 31 := by norm_num
  have h4 : d.getD (totpOffset d + 3) 0 &&& 255 < 2 ^ 31 :=
    lt_of_lt_of_le (and_255_lt _) (by norm_num)
  have : totpBinary d < 2 ^ 31 := by
    simp only [totpBinary]
    exact Nat.or_lt_two_pow (Nat.or_lt_two_pow (Nat.or_lt_two_pow h1 h2) h3) h4
  exact this
